import Mathlib

/-!
Verification development for findAndDeleteVMs.py.

The embedding models the two core functions of the script:

  - waitForTasks: a property-collector subscription loop that blocks until
    every monitored task reaches a terminal state.  The loop keeps a list of
    task identifiers (taskList) still pending, consumes batches of change
    notifications, removes an identifier upon observing a success state, and
    raises the failing task error payload upon observing an error state.
    A try/finally block destroys the subscription filter on every exit path.

  - powerDownAndDelete: a two-phase orchestrator.  Phase 1 submits a
    power-off job for every VM whose power state is the string poweredOn and
    awaits the batch; phase 2 submits a destroy job for every VM in the
    input and awaits that batch.

Notifications, updates and tasks are modelled structurally after the
pyVmomi objects the source reads: an Update holds filter sets, a filter set
holds object sets, an object set pairs a task object with a change set, and
a change pairs a property name with a value.  External effects (filter
creation and destruction, job submission, verbose printing) are recorded in
an explicit event trace.  The blocking call WaitForUpdates is modelled by a
finite list of updates handed to the loop; exhausting the list while tasks
are still pending corresponds to the process blocking forever (outcome
blocked), which is not an exit path of the function.
-/

namespace FindVMs

/-- States of vim.TaskInfo.State. -/
inductive TaskState where
  | queued
  | running
  | success
  | error
deriving DecidableEq, Repr

/-- Value the Python variable named state can hold after an assignment:
either a genuine task state, or an arbitrary non-state value (which compares
unequal to both terminal states, exactly as in Python). -/
inductive StVal where
  | st (s : TaskState)
  | other
deriving DecidableEq, Repr

/-- Value carried by a property change: a full task-info record (of which
the source only reads the state field), a bare state, or anything else. -/
inductive PCVal where
  | infoVal (s : TaskState)
  | stateVal (s : TaskState)
  | otherVal
deriving DecidableEq, Repr

/-- One property change delivered by the property collector: a property
name (the source recognises the strings info and info.state) and a value. -/
structure Change where
  name : String
  val : PCVal
deriving DecidableEq, Repr

/-- A task object: its string form (str(task), used as the identifier kept
in taskList) and the error payload reachable as task.info.error. -/
structure Task where
  id : String
  infoError : Nat
deriving DecidableEq, Repr

/-- One objSet entry of an update: the task object and its change set. -/
structure ObjSet where
  obj : Task
  changeSet : List Change
deriving DecidableEq, Repr

/-- One filterSet entry of an update. -/
structure FilterSet where
  objectSet : List ObjSet
deriving DecidableEq, Repr

/-- One update returned by WaitForUpdates. -/
structure Update where
  filterSet : List FilterSet
  version : Nat
deriving DecidableEq, Repr

/-- Python list.remove: drop the first occurrence of x, keep the rest. -/
def removeFirst (x : String) : List String → List String
  | [] => []
  | y :: ys => if y = x then ys else y :: removeFirst x ys

/-- Action decided by the body of the change loop once a state value has
been extracted: either continue with a (possibly shrunk) taskList, or raise
the error payload of the task. -/
inductive StepAct where
  | setList (taskList : List String)
  | raiseErr (e : Nat)
deriving DecidableEq, Repr

/-- Body of the change loop after the state assignment: skip tasks that are
not in taskList, remove the task upon success, raise task.info.error upon
error, and otherwise do nothing. -/
def stateCheck (task : Task) (state : StVal) (taskList : List String) : StepAct :=
  if task.id ∈ taskList then
    if state = StVal.st TaskState.success then StepAct.setList (removeFirst task.id taskList)
    else if state = StVal.st TaskState.error then StepAct.raiseErr task.infoError
    else StepAct.setList taskList
  else StepAct.setList taskList

/-- Result of processing a sequence of changes: normal continuation with the
current taskList and state variable, a raised error payload, or a crash
(AttributeError when change.val has no state attribute) together with the
taskList value at that point. -/
inductive StepRes where
  | cont (taskList : List String) (state : Option StVal)
  | raised (e : Nat) (taskList : List String)
  | crashed (taskList : List String)
deriving DecidableEq, Repr

/-- Interpretation of a change value assigned directly to the state
variable by the branch for the name info.state: a bare state value is that
state; any other Python value compares unequal to both terminal states. -/
def fineVal : PCVal → StVal
  | PCVal.stateVal s => StVal.st s
  | _ => StVal.other

/-- The inner change loop of waitForTasks for one objSet.  A change named
info reads change.val.state (crashing if the value is not an info record);
a change named info.state takes change.val itself as the state; any other
name is skipped by continue. -/
def processChangeSet (task : Task) : List Change → List String → Option StVal → StepRes
  | [], taskList, state => StepRes.cont taskList state
  | c :: rest, taskList, state =>
    if c.name = "info" then
      match c.val with
      | PCVal.infoVal s =>
        match stateCheck task (StVal.st s) taskList with
        | StepAct.setList tl => processChangeSet task rest tl (some (StVal.st s))
        | StepAct.raiseErr e => StepRes.raised e taskList
      | _ => StepRes.crashed taskList
    else if c.name = "info.state" then
      match stateCheck task (fineVal c.val) taskList with
      | StepAct.setList tl => processChangeSet task rest tl (some (fineVal c.val))
      | StepAct.raiseErr e => StepRes.raised e taskList
    else
      processChangeSet task rest taskList state

/-- The objSet loop of waitForTasks: process each objSet in order, stopping
at the first raise or crash. -/
def processObjSets : List ObjSet → List String → Option StVal → StepRes
  | [], taskList, state => StepRes.cont taskList state
  | os :: rest, taskList, state =>
    match processChangeSet os.obj os.changeSet taskList state with
    | StepRes.cont tl st => processObjSets rest tl st
    | r => r

/-- The filterSet loop of waitForTasks. -/
def processFilterSets : List FilterSet → List String → Option StVal → StepRes
  | [], taskList, state => StepRes.cont taskList state
  | fs :: rest, taskList, state =>
    match processObjSets fs.objectSet taskList state with
    | StepRes.cont tl st => processFilterSets rest tl st
    | r => r

/-- Outcome of one waitForTasks call.  blocked models the process hanging
forever inside WaitForUpdates because no further update ever arrives; it is
the one case in which the function never exits. -/
inductive WaitOutcome where
  | success
  | failure (e : Nat)
  | crashed
  | blocked
deriving DecidableEq, Repr

/-- The while loop of waitForTasks: while taskList is non-empty, take the
next update, process all its filter sets, and feed the version token back.
The second component is the final value of the taskList variable. -/
def waitLoop : List Update → List String → Option StVal → Option Nat →
    WaitOutcome × List String
  | _, [], _, _ => (WaitOutcome.success, [])
  | [], t :: ts, _, _ => (WaitOutcome.blocked, t :: ts)
  | u :: rest, t :: ts, state, _ =>
    match processFilterSets u.filterSet (t :: ts) state with
    | StepRes.cont tl st => waitLoop rest tl st (some u.version)
    | StepRes.raised e tl => (WaitOutcome.failure e, tl)
    | StepRes.crashed tl => (WaitOutcome.crashed, tl)

/-- Externally visible effects of the two core functions. -/
inductive Event where
  | createFilter (watched : List String)
  | destroyFilter
  | powerOffReq (vmName : String)
  | destroyReq (vmName : String)
  | printLine (line : String)
deriving DecidableEq, Repr

/-- Result of one waitForTasks call: its outcome, the final value of the
taskList variable, and the trace of external effects. -/
structure WaitResult where
  outcome : WaitOutcome
  taskList : List String
  events : List Event
deriving DecidableEq, Repr

/-- waitForTasks: build taskList from str of each task, create the filter,
run the update loop, and destroy the filter in the finally block.  The
finally block runs on every exit path (normal return, raised task error,
crash); it does not run when the process blocks forever. -/
def waitForTasks (tasks : List Task) (stream : List Update) : WaitResult :=
  let taskList := tasks.map Task.id
  let r := waitLoop stream taskList none none
  { outcome := r.1
    taskList := r.2
    events := Event.createFilter taskList ::
      (if r.1 = WaitOutcome.blocked then [] else [Event.destroyFilter]) }

/-- Constant STATE_POWERON of the source. -/
def STATE_POWERON : String := "poweredOn"

/-- Constant STATE_POWEROFF of the source. -/
def STATE_POWEROFF : String := "poweredOff"

/-- A virtual machine as the orchestrator sees it: its name, the string
value of runtime.powerState, and the task handles that PowerOffVM_Task and
Destroy_Task return for it. -/
structure VM where
  name : String
  powerState : String
  powerOffTask : Task
  destroyTask : Task
deriving DecidableEq, Repr

/-- The powerTaskList built by phase 1 of powerDownAndDelete. -/
def powerTaskListOf (vmList : List VM) : List Task :=
  (vmList.filter (fun vm => vm.powerState == STATE_POWERON)).map VM.powerOffTask

/-- The deleteTaskList built by phase 2 of powerDownAndDelete. -/
def deleteTaskListOf (vmList : List VM) : List Task :=
  vmList.map VM.destroyTask

/-- Events emitted while phase 1 builds powerTaskList: an optional verbose
line and a power-off submission for each VM whose power state is poweredOn. -/
def phase1Events (folderName : String) (vmList : List VM) (verbose : Bool) : List Event :=
  vmList.flatMap (fun vm =>
    if vm.powerState == STATE_POWERON then
      (if verbose then [Event.printLine ("Powering off " ++ folderName ++ vm.name)] else [])
        ++ [Event.powerOffReq vm.name]
    else [])

/-- Events emitted while phase 2 builds deleteTaskList: an optional verbose
line and a destroy submission for every VM in the input. -/
def phase2Events (folderName : String) (vmList : List VM) (verbose : Bool) : List Event :=
  vmList.flatMap (fun vm =>
    (if verbose then [Event.printLine ("Destroying " ++ folderName ++ vm.name)] else [])
      ++ [Event.destroyReq vm.name])

/-- Folder name qualification computed at the top of powerDownAndDelete. -/
def folderNameOf : Option String → String
  | some name => name ++ "/"
  | none => ""

/-- Result of one powerDownAndDelete call: outcome and event trace. -/
structure RunResult where
  outcome : WaitOutcome
  events : List Event
deriving DecidableEq, Repr

/-- Phase 2 of powerDownAndDelete: submit a destroy job for every VM and,
when the list is non-empty, await the batch. -/
def powerDownPhase2 (folderName : String) (vmList : List VM) (verbose : Bool)
    (stream2 : List Update) (evs : List Event) : RunResult :=
  let deleteTaskList := deleteTaskListOf vmList
  let ev2 := phase2Events folderName vmList verbose
  if deleteTaskList.isEmpty then
    { outcome := WaitOutcome.success, events := evs ++ ev2 }
  else
    let w2 := waitForTasks deleteTaskList stream2
    { outcome := w2.outcome, events := evs ++ ev2 ++ w2.events }

/-- powerDownAndDelete: power off every VM currently poweredOn, await that
batch when non-empty (an exception from the wait propagates and phase 2 is
never reached), then destroy every VM in the input and await that batch.
stream1 and stream2 are the notification streams the two waits consume. -/
def powerDownAndDelete (folder : Option String) (vmList : List VM) (verbose : Bool)
    (stream1 stream2 : List Update) : RunResult :=
  let folderName := folderNameOf folder
  let powerTaskList := powerTaskListOf vmList
  let ev1 := phase1Events folderName vmList verbose
  if powerTaskList.isEmpty then
    powerDownPhase2 folderName vmList verbose stream2 ev1
  else
    let w1 := waitForTasks powerTaskList stream1
    if w1.outcome = WaitOutcome.success then
      powerDownPhase2 folderName vmList verbose stream2 (ev1 ++ w1.events)
    else
      { outcome := w1.outcome, events := ev1 ++ w1.events }

/-!
Flattened view of a notification stream.  The nested loops of waitForTasks
consume the changes of an update in a fixed order; flattening a stream into
the sequence of (task, extracted state value) observations it delivers lets
the loop be described as a single fold.  Changes whose name is neither info
nor info.state contribute no observation, exactly as the continue branch of
the source skips them.
-/

/-- State value extracted from one change, when the change is recognised.
For the name info the info-record state is read; for the name info.state
the raw value is taken; any other name yields no observation. -/
def changeObs (c : Change) : Option StVal :=
  if c.name = "info" then
    match c.val with
    | PCVal.infoVal s => some (StVal.st s)
    | _ => some StVal.other
  else if c.name = "info.state" then
    some (fineVal c.val)
  else none

/-- Observations contributed by the change set of one task. -/
def flattenChanges (task : Task) (cs : List Change) : List (Task × StVal) :=
  cs.filterMap (fun c => (changeObs c).map (fun v => (task, v)))

/-- Observations contributed by one objSet. -/
def flattenObjSet (os : ObjSet) : List (Task × StVal) :=
  flattenChanges os.obj os.changeSet

/-- Observations contributed by one update, in processing order. -/
def flattenUpdate (u : Update) : List (Task × StVal) :=
  u.filterSet.flatMap (fun fs => fs.objectSet.flatMap flattenObjSet)

/-- Observations contributed by a whole stream of updates. -/
def flattenStream (us : List Update) : List (Task × StVal) :=
  us.flatMap flattenUpdate

/-- Result of folding the observation sequence: either the loop ran through
with a final taskList, or a task error payload was raised with the taskList
value at that point. -/
inductive FoldRes where
  | done (taskList : List String)
  | raisedF (e : Nat) (taskList : List String)
deriving DecidableEq, Repr

/-- The taskList component of a fold result. -/
def tlOf : FoldRes → List String
  | FoldRes.done tl => tl
  | FoldRes.raisedF _ tl => tl

/-- Folding the per-change body over a sequence of observations. -/
def foldObs : List (Task × StVal) → List String → FoldRes
  | [], taskList => FoldRes.done taskList
  | (t, v) :: rest, taskList =>
    match stateCheck t v taskList with
    | StepAct.setList tl => foldObs rest tl
    | StepAct.raiseErr e => FoldRes.raisedF e taskList

/-- A change is well formed when a change named info carries an info
record, so that reading change.val.state cannot crash.  The property
collector always delivers a value matching the property path, so every
stream the external system produces is well formed. -/
def wfChange (c : Change) : Bool :=
  if c.name = "info" then
    match c.val with
    | PCVal.infoVal _ => true
    | _ => false
  else true

/-- Well-formedness of one objSet. -/
def wfObjSet (os : ObjSet) : Bool := os.changeSet.all wfChange

/-- Well-formedness of one update. -/
def wfUpdate (u : Update) : Bool := u.filterSet.all (fun fs => fs.objectSet.all wfObjSet)

/-- Well-formedness of a stream. -/
def wfStream (us : List Update) : Bool := us.all wfUpdate

/-- View of a step result as a fold result: a crash has no counterpart. -/
def toFold : StepRes → Option FoldRes
  | StepRes.cont tl _ => some (FoldRes.done tl)
  | StepRes.raised e tl => some (FoldRes.raisedF e tl)
  | StepRes.crashed _ => none

/-- Intended meaning of the whole wait loop on the flattened stream: run the
fold; an exhausted stream with pending tasks blocks, an emptied taskList is
success, a raise is a failure. -/
def loopSpec (obs : List (Task × StVal)) (taskList : List String) :
    WaitOutcome × List String :=
  match foldObs obs taskList with
  | FoldRes.done tl => if tl.isEmpty then (WaitOutcome.success, []) else (WaitOutcome.blocked, tl)
  | FoldRes.raisedF e tl => (WaitOutcome.failure e, tl)

/-- Per-handle acceptance condition used by the success claim: the first
terminal state the stream reports for handle h is success. -/
def firstTerminalIsSuccess (h : String) : List (Task × StVal) → Bool
  | [] => false
  | (t, v) :: rest =>
    if t.id = h then
      if v = StVal.st TaskState.success then true
      else if v = StVal.st TaskState.error then false
      else firstTerminalIsSuccess h rest
    else firstTerminalIsSuccess h rest

/-- Names of the power-off submissions in a trace, in order. -/
def powerOffNames (es : List Event) : List String :=
  es.filterMap (fun e => match e with
    | Event.powerOffReq n => some n
    | _ => none)

/-- Names of the destroy submissions in a trace, in order. -/
def destroyNames (es : List Event) : List String :=
  es.filterMap (fun e => match e with
    | Event.destroyReq n => some n
    | _ => none)

/-!
Concrete data used to exercise the development on closed inputs.
-/

/-- A concrete task with error payload 7. -/
def taskOne : Task := ⟨"task-1", 7⟩

/-- A second concrete task with the same error payload 7. -/
def taskTwo : Task := ⟨"task-2", 7⟩

/-- A two-task batch. -/
def tasksC4 : List Task := [taskOne, taskTwo]

/-- One update reporting an error state for taskOne via the fine field. -/
def streamErrFirst : List Update :=
  [⟨[⟨[⟨taskOne, [⟨"info.state", PCVal.stateVal TaskState.error⟩]⟩]⟩], 1⟩]

/-- One update reporting an error state for taskTwo via the fine field. -/
def streamErrSecond : List Update :=
  [⟨[⟨[⟨taskTwo, [⟨"info.state", PCVal.stateVal TaskState.error⟩]⟩]⟩], 1⟩]

/-- A running VM whose power-off job is taskOne. -/
def vmC4 : VM := ⟨"a", "poweredOn", taskOne, ⟨"task-9", 0⟩⟩

/-- Two tasks whose successes arrive through different field kinds. -/
def tasksC1 : List Task := [⟨"a1", 0⟩, ⟨"a2", 0⟩]

/-- A stream delivering a non-terminal update, then both successes in one
batch, one through the coarse field and one through the fine field. -/
def streamC1 : List Update :=
  [⟨[⟨[⟨⟨"a1", 0⟩, [⟨"info", PCVal.infoVal TaskState.running⟩]⟩]⟩], 1⟩,
   ⟨[⟨[⟨⟨"a2", 0⟩, [⟨"info.state", PCVal.stateVal TaskState.success⟩]⟩,
       ⟨⟨"a1", 0⟩, [⟨"info", PCVal.infoVal TaskState.success⟩]⟩]⟩], 2⟩]

/-- Two tasks for the error-abort scenario. -/
def tasksC2 : List Task := [⟨"e1", 3⟩, ⟨"e2", 4⟩]

/-- A batch with a success for e1, then an error for e2, then a further
change that the aborted loop never processes. -/
def streamC2 : List Update :=
  [⟨[⟨[⟨⟨"e1", 3⟩, [⟨"info", PCVal.infoVal TaskState.success⟩]⟩,
       ⟨⟨"e2", 4⟩, [⟨"info.state", PCVal.stateVal TaskState.error⟩,
                    ⟨"info.state", PCVal.stateVal TaskState.running⟩]⟩]⟩], 1⟩]

/-- Two tasks of which only the first resolves. -/
def tasksC7 : List Task := [⟨"p1", 0⟩, ⟨"p2", 0⟩]

/-- A stream with a single success for p1; p2 stays pending. -/
def streamC7 : List Update :=
  [⟨[⟨[⟨⟨"p1", 0⟩, [⟨"info", PCVal.infoVal TaskState.success⟩]⟩]⟩], 1⟩]

/-- A task monitored in the single-notification scenarios. -/
def taskC8 : Task := ⟨"w1", 1⟩

/-- A pending list that does not contain taskC8. -/
def tlC8 : List String := ["w2"]

/-- A change with an unrecognised property name. -/
def changeC8a : Change := ⟨"name", PCVal.otherVal⟩

/-- An error-state change, aimed at a handle outside the pending list. -/
def changeC8b : Change := ⟨"info.state", PCVal.stateVal TaskState.error⟩

/-- Power-off job of the running VM in the abort scenario. -/
def taskC5 : Task := ⟨"t5", 9⟩

/-- A running VM whose power-off job fails. -/
def vmC5on : VM := ⟨"von", "poweredOn", taskC5, ⟨"t5d", 0⟩⟩

/-- A powered-off VM: phase 1 skips it, phase 2 destroys it. -/
def vmC5off : VM := ⟨"voff", "poweredOff", ⟨"x5", 0⟩, ⟨"t5e", 0⟩⟩

/-- An error update for the power-off job of vmC5on. -/
def streamC5err : List Update :=
  [⟨[⟨[⟨taskC5, [⟨"info", PCVal.infoVal TaskState.error⟩]⟩]⟩], 1⟩]

/-- A success update for the destroy job of vmC5off. -/
def streamC5ok : List Update :=
  [⟨[⟨[⟨⟨"t5e", 0⟩, [⟨"info", PCVal.infoVal TaskState.success⟩]⟩]⟩], 1⟩]

/-- A running VM for the two-phase scenario of the spec. -/
def vmC6a : VM := ⟨"a", "poweredOn", ⟨"c6p", 0⟩, ⟨"c6d1", 0⟩⟩

/-- An already powered-off VM for the two-phase scenario of the spec. -/
def vmC6b : VM := ⟨"b", "poweredOff", ⟨"c6q", 0⟩, ⟨"c6d2", 0⟩⟩

/-- Success of the single power-off job of the two-phase scenario. -/
def streamC6p : List Update :=
  [⟨[⟨[⟨⟨"c6p", 0⟩, [⟨"info", PCVal.infoVal TaskState.success⟩]⟩]⟩], 1⟩]

/-- Successes of both destroy jobs of the two-phase scenario. -/
def streamC6d : List Update :=
  [⟨[⟨[⟨⟨"c6d1", 0⟩, [⟨"info", PCVal.infoVal TaskState.success⟩]⟩,
       ⟨⟨"c6d2", 0⟩, [⟨"info.state", PCVal.stateVal TaskState.success⟩]⟩]⟩], 1⟩]

/-!
Bridge lemmas: the nested loops of waitForTasks compute exactly the fold of
the per-change body over the flattened observation sequence, provided the
stream is well formed (no AttributeError crash is possible).
-/

/-- Folding a concatenation folds the pieces in sequence, stopping at a
raise. -/
theorem foldObs_append (a b : List (Task × StVal)) (tl : List String) :
    foldObs (a ++ b) tl =
      match foldObs a tl with
      | FoldRes.done tl2 => foldObs b tl2
      | FoldRes.raisedF e tl2 => FoldRes.raisedF e tl2 := by
  induction a generalizing tl with
  | nil => simp [foldObs]
  | cons p rest ih =>
    obtain ⟨t, v⟩ := p
    simp only [List.cons_append, foldObs]
    cases stateCheck t v tl with
    | setList tl2 => exact ih tl2
    | raiseErr e => rfl

/-- With an empty taskList every observation is skipped. -/
theorem foldObs_nil_taskList (obs : List (Task × StVal)) :
    foldObs obs [] = FoldRes.done [] := by
  induction obs with
  | nil => rfl
  | cons p rest ih =>
    obtain ⟨t, v⟩ := p
    simp [foldObs, stateCheck, ih]

/-- The change loop for one task agrees with the fold over the observations
of its change set. -/
theorem processChangeSet_eq_foldObs (task : Task) (cs : List Change)
    (tl : List String) (st : Option StVal) (hwf : cs.all wfChange = true) :
    toFold (processChangeSet task cs tl st) =
      some (foldObs (flattenChanges task cs) tl) := by
  induction cs generalizing tl st with
  | nil => simp [processChangeSet, flattenChanges, foldObs, toFold]
  | cons c rest ih =>
    rw [List.all_cons, Bool.and_eq_true] at hwf
    obtain ⟨hc, hrest⟩ := hwf
    by_cases h1 : c.name = "info"
    · cases hv : c.val with
      | infoVal s =>
        simp only [processChangeSet, h1, if_true, hv, flattenChanges,
          List.filterMap_cons, changeObs, Option.map_some]
        cases hsc : stateCheck task (StVal.st s) tl with
        | setList tl2 =>
          simp only [foldObs, hsc]
          exact ih tl2 (some (StVal.st s)) hrest
        | raiseErr e => simp [foldObs, hsc, toFold]
      | stateVal s => simp [wfChange, h1, hv] at hc
      | otherVal => simp [wfChange, h1, hv] at hc
    · by_cases h2 : c.name = "info.state"
      · simp only [processChangeSet, h1, if_false, h2, if_true, flattenChanges,
          List.filterMap_cons, changeObs, Option.map_some]
        cases hsc : stateCheck task (fineVal c.val) tl with
        | setList tl2 =>
          simp only [foldObs, hsc]
          exact ih tl2 (some (fineVal c.val)) hrest
        | raiseErr e => simp [foldObs, hsc, toFold]
      · simp only [processChangeSet, h1, if_false, h2, flattenChanges,
          List.filterMap_cons, changeObs, Option.map_some]
        exact ih tl st hrest

/-- The objSet loop agrees with the fold over the observations of all its
objSets. -/
theorem processObjSets_eq_foldObs (oss : List ObjSet) (tl : List String)
    (st : Option StVal) (hwf : oss.all wfObjSet = true) :
    toFold (processObjSets oss tl st) =
      some (foldObs (oss.flatMap flattenObjSet) tl) := by
  induction oss generalizing tl st with
  | nil => simp [processObjSets, foldObs, toFold]
  | cons os rest ih =>
    rw [List.all_cons, Bool.and_eq_true] at hwf
    obtain ⟨hos, hrest⟩ := hwf
    have h1 := processChangeSet_eq_foldObs os.obj os.changeSet tl st hos
    simp only [processObjSets, List.flatMap_cons, foldObs_append, flattenObjSet]
    cases hp : processChangeSet os.obj os.changeSet tl st with
    | cont tl2 st2 =>
      rw [hp] at h1
      simp only [toFold, Option.some_inj] at h1
      rw [← h1]
      exact ih tl2 st2 hrest
    | raised e tl2 =>
      rw [hp] at h1
      simp only [toFold, Option.some_inj] at h1
      rw [← h1]
      simp [toFold]
    | crashed tl2 =>
      rw [hp] at h1
      simp [toFold] at h1

/-- The filterSet loop agrees with the fold over the observations of the
whole update. -/
theorem processFilterSets_eq_foldObs (fss : List FilterSet) (tl : List String)
    (st : Option StVal) (hwf : fss.all (fun fs => fs.objectSet.all wfObjSet) = true) :
    toFold (processFilterSets fss tl st) =
      some (foldObs (fss.flatMap (fun fs => fs.objectSet.flatMap flattenObjSet)) tl) := by
  induction fss generalizing tl st with
  | nil => simp [processFilterSets, foldObs, toFold]
  | cons fs rest ih =>
    rw [List.all_cons, Bool.and_eq_true] at hwf
    obtain ⟨hfs, hrest⟩ := hwf
    have h1 := processObjSets_eq_foldObs fs.objectSet tl st hfs
    simp only [processFilterSets, List.flatMap_cons, foldObs_append]
    cases hp : processObjSets fs.objectSet tl st with
    | cont tl2 st2 =>
      rw [hp] at h1
      simp only [toFold, Option.some_inj] at h1
      rw [← h1]
      exact ih tl2 st2 hrest
    | raised e tl2 =>
      rw [hp] at h1
      simp only [toFold, Option.some_inj] at h1
      rw [← h1]
      simp [toFold]
    | crashed tl2 =>
      rw [hp] at h1
      simp [toFold] at h1

/-- Composition helper: once the fold over a consumed piece is done, the
loop meaning of the remainder takes over. -/
theorem loopSpec_append_done (a b : List (Task × StVal)) (tl tl2 : List String)
    (h : foldObs a tl = FoldRes.done tl2) :
    loopSpec (a ++ b) tl = loopSpec b tl2 := by
  simp [loopSpec, foldObs_append, h]

/-- The while loop of waitForTasks equals the loop meaning of the flattened
stream, for well-formed streams. -/
theorem waitLoop_eq_loopSpec (stream : List Update) (tl : List String)
    (st : Option StVal) (ver : Option Nat) (hwf : wfStream stream = true) :
    waitLoop stream tl st ver = loopSpec (flattenStream stream) tl := by
  induction stream generalizing tl st ver with
  | nil =>
    cases tl with
    | nil => simp [waitLoop, loopSpec, flattenStream, foldObs]
    | cons t ts => simp [waitLoop, loopSpec, flattenStream, foldObs]
  | cons u rest ih =>
    rw [wfStream, List.all_cons, Bool.and_eq_true] at hwf
    obtain ⟨hu, hrest⟩ := hwf
    cases tl with
    | nil =>
      simp [waitLoop, loopSpec, foldObs_nil_taskList]
    | cons t ts =>
      have h1 := processFilterSets_eq_foldObs u.filterSet (t :: ts) st hu
      have hflat : flattenStream (u :: rest) = flattenUpdate u ++ flattenStream rest := by
        simp [flattenStream, List.flatMap_cons]
      cases hp : processFilterSets u.filterSet (t :: ts) st with
      | cont tl2 st2 =>
        rw [hp] at h1
        simp only [toFold, Option.some_inj] at h1
        rw [hflat,
          loopSpec_append_done (flattenUpdate u) (flattenStream rest) (t :: ts) tl2 h1.symm]
        simp only [waitLoop, hp]
        exact ih tl2 st2 (some u.version) hrest
      | raised e tl2 =>
        rw [hp] at h1
        simp only [toFold, Option.some_inj] at h1
        rw [hflat]
        simp only [waitLoop, hp]
        simp [loopSpec, foldObs_append, flattenUpdate, ← h1]
      | crashed tl2 =>
        rw [hp] at h1
        simp [toFold] at h1

/-!
Elementary properties of removeFirst, stateCheck and foldObs.
-/

/-- Removing an element leaves a sublist. -/
theorem removeFirst_sublist (x : String) (l : List String) :
    (removeFirst x l).Sublist l := by
  induction l with
  | nil => exact List.Sublist.refl []
  | cons y ys ih =>
    simp only [removeFirst]
    by_cases h : y = x
    · simp only [h, if_true]
      exact List.sublist_cons_self x ys
    · simp only [h, if_false]
      exact List.Sublist.cons₂ y ih

/-- Membership of other elements survives removeFirst. -/
theorem mem_removeFirst_of_ne (x h : String) (l : List String) (hne : h ≠ x) :
    h ∈ removeFirst x l ↔ h ∈ l := by
  induction l with
  | nil => simp [removeFirst]
  | cons y ys ih =>
    simp only [removeFirst]
    by_cases hy : y = x
    · subst hy
      simp [hne, List.mem_cons]
    · simp [hy, List.mem_cons, ih]

/-- In a duplicate-free list the removed element is gone. -/
theorem not_mem_removeFirst_self (x : String) (l : List String) (hnd : l.Nodup) :
    x ∉ removeFirst x l := by
  induction l with
  | nil => simp [removeFirst]
  | cons y ys ih =>
    rw [List.nodup_cons] at hnd
    simp only [removeFirst]
    by_cases hy : y = x
    · subst hy
      simp only [if_true]
      exact hnd.1
    · simp only [hy, if_false, List.mem_cons]
      intro hc
      rcases hc with hc | hc
      · exact hy hc.symm
      · exact ih hnd.2 hc

/-- Evaluation of stateCheck for a non-pending task: nothing happens. -/
theorem stateCheck_not_mem (t : Task) (v : StVal) (tl : List String)
    (h1 : t.id ∉ tl) : stateCheck t v tl = StepAct.setList tl := by
  unfold stateCheck
  rw [if_neg h1]

/-- Evaluation of stateCheck on a success observation for a pending task. -/
theorem stateCheck_success (t : Task) (tl : List String) (h1 : t.id ∈ tl) :
    stateCheck t (StVal.st TaskState.success) tl =
      StepAct.setList (removeFirst t.id tl) := by
  unfold stateCheck
  rw [if_pos h1, if_pos rfl]

/-- Evaluation of stateCheck on an error observation for a pending task. -/
theorem stateCheck_error (t : Task) (tl : List String) (h1 : t.id ∈ tl) :
    stateCheck t (StVal.st TaskState.error) tl = StepAct.raiseErr t.infoError := by
  unfold stateCheck
  rw [if_pos h1, if_neg (by simp), if_pos rfl]

/-- Evaluation of stateCheck on a non-terminal observation. -/
theorem stateCheck_skip (t : Task) (v : StVal) (tl : List String) (h1 : t.id ∈ tl)
    (h2 : v ≠ StVal.st TaskState.success) (h3 : v ≠ StVal.st TaskState.error) :
    stateCheck t v tl = StepAct.setList tl := by
  unfold stateCheck
  rw [if_pos h1, if_neg h2, if_neg h3]

/-- A setList action never grows the taskList. -/
theorem stateCheck_setList_sublist (t : Task) (v : StVal) (tl tl2 : List String)
    (h : stateCheck t v tl = StepAct.setList tl2) : tl2.Sublist tl := by
  by_cases h1 : t.id ∈ tl
  · by_cases h2 : v = StVal.st TaskState.success
    · subst h2
      rw [stateCheck_success t tl h1, StepAct.setList.injEq] at h
      rw [← h]
      exact removeFirst_sublist t.id tl
    · by_cases h3 : v = StVal.st TaskState.error
      · subst h3
        rw [stateCheck_error t tl h1] at h
        exact StepAct.noConfusion h
      · rw [stateCheck_skip t v tl h1 h2 h3, StepAct.setList.injEq] at h
        rw [← h]
  · rw [stateCheck_not_mem t v tl h1, StepAct.setList.injEq] at h
    rw [← h]

/-- A raiseErr action means: the task is pending, the observed state is
error, and the payload is exactly task.info.error. -/
theorem stateCheck_raiseErr (t : Task) (v : StVal) (tl : List String) (e : Nat)
    (h : stateCheck t v tl = StepAct.raiseErr e) :
    t.id ∈ tl ∧ v = StVal.st TaskState.error ∧ e = t.infoError := by
  by_cases h1 : t.id ∈ tl
  · by_cases h2 : v = StVal.st TaskState.success
    · subst h2
      rw [stateCheck_success t tl h1] at h
      exact StepAct.noConfusion h
    · by_cases h3 : v = StVal.st TaskState.error
      · subst h3
        rw [stateCheck_error t tl h1, StepAct.raiseErr.injEq] at h
        exact ⟨h1, rfl, h.symm⟩
      · rw [stateCheck_skip t v tl h1 h2 h3] at h
        exact StepAct.noConfusion h
  · rw [stateCheck_not_mem t v tl h1] at h
    exact StepAct.noConfusion h

/-- A handle that disappears in one setList step is the handle of the task
and the observed state was success. -/
theorem stateCheck_removes (t : Task) (v : StVal) (tl tl2 : List String) (h : String)
    (hsc : stateCheck t v tl = StepAct.setList tl2)
    (hin : h ∈ tl) (hout : h ∉ tl2) :
    h = t.id ∧ v = StVal.st TaskState.success := by
  by_cases h1 : t.id ∈ tl
  · by_cases h2 : v = StVal.st TaskState.success
    · subst h2
      rw [stateCheck_success t tl h1, StepAct.setList.injEq] at hsc
      rw [← hsc] at hout
      by_cases hh : h = t.id
      · exact ⟨hh, rfl⟩
      · exact absurd ((mem_removeFirst_of_ne t.id h tl hh).2 hin) hout
    · by_cases h3 : v = StVal.st TaskState.error
      · subst h3
        rw [stateCheck_error t tl h1] at hsc
        exact StepAct.noConfusion hsc
      · rw [stateCheck_skip t v tl h1 h2 h3, StepAct.setList.injEq] at hsc
        rw [← hsc] at hout
        exact absurd hin hout
  · rw [stateCheck_not_mem t v tl h1, StepAct.setList.injEq] at hsc
    rw [← hsc] at hout
    exact absurd hin hout

/-- The final taskList of a fold is a sublist of the initial one: the loop
only ever removes handles. -/
theorem tlOf_foldObs_sublist (obs : List (Task × StVal)) :
    ∀ tl : List String, (tlOf (foldObs obs tl)).Sublist tl := by
  induction obs with
  | nil => intro tl; exact List.Sublist.refl tl
  | cons p rest ih =>
    intro tl
    obtain ⟨t, v⟩ := p
    simp only [foldObs]
    cases hsc : stateCheck t v tl with
    | setList tl2 => exact (ih tl2).trans (stateCheck_setList_sublist t v tl tl2 hsc)
    | raiseErr e => exact List.Sublist.refl tl

/-- A handle present initially and absent finally was removed by a success
observation for that handle. -/
theorem foldObs_removed_success (obs : List (Task × StVal)) :
    ∀ (tl : List String) (h : String), h ∈ tl → h ∉ tlOf (foldObs obs tl) →
      ∃ t : Task, (t, StVal.st TaskState.success) ∈ obs ∧ t.id = h := by
  induction obs with
  | nil =>
    intro tl h hin hout
    exact absurd hin hout
  | cons p rest ih =>
    intro tl h hin hout
    obtain ⟨t, v⟩ := p
    simp only [foldObs] at hout
    cases hsc : stateCheck t v tl with
    | setList tl2 =>
      rw [hsc] at hout
      by_cases hmem2 : h ∈ tl2
      · obtain ⟨t2, ht2, hid⟩ := ih tl2 h hmem2 hout
        exact ⟨t2, List.mem_cons_of_mem _ ht2, hid⟩
      · obtain ⟨hh, hv⟩ := stateCheck_removes t v tl tl2 h hsc hin hmem2
        subst hv
        exact ⟨t, List.mem_cons_self _ _, hh.symm⟩
    | raiseErr e =>
      rw [hsc] at hout
      exact absurd hin hout

/-- A raise can only happen while the taskList is non-empty. -/
theorem foldObs_raisedF_ne_nil (obs : List (Task × StVal)) :
    ∀ (tl tl2 : List String) (e : Nat),
      foldObs obs tl = FoldRes.raisedF e tl2 → tl2 ≠ [] := by
  induction obs with
  | nil =>
    intro tl tl2 e hf
    exact absurd hf (by simp [foldObs])
  | cons p rest ih =>
    intro tl tl2 e hf
    obtain ⟨t, v⟩ := p
    simp only [foldObs] at hf
    cases hsc : stateCheck t v tl with
    | setList tl3 =>
      rw [hsc] at hf
      exact ih tl3 tl2 e hf
    | raiseErr e2 =>
      rw [hsc] at hf
      rw [FoldRes.raisedF.injEq] at hf
      obtain ⟨hmem, _, _⟩ := stateCheck_raiseErr t v tl e2 hsc
      intro hnil
      rw [hf.2, hnil] at hmem
      exact absurd hmem (List.not_mem_nil t.id)

/-- Core of the all-success claim: if for every pending handle the first
terminal state the observations report is success, the fold empties the
taskList without raising. -/
theorem foldObs_done_nil_of_success (obs : List (Task × StVal)) :
    ∀ tl : List String, tl.Nodup →
      (∀ h ∈ tl, firstTerminalIsSuccess h obs = true) →
      foldObs obs tl = FoldRes.done [] := by
  induction obs with
  | nil =>
    intro tl hnd hall
    cases tl with
    | nil => rfl
    | cons t ts =>
      exact absurd (hall t (List.mem_cons_self t ts)) (by simp [firstTerminalIsSuccess])
  | cons p rest ih =>
    intro tl hnd hall
    obtain ⟨t, v⟩ := p
    simp only [foldObs]
    by_cases hm : t.id ∈ tl
    · by_cases hs : v = StVal.st TaskState.success
      · subst hs
        simp only [stateCheck, hm, if_true]
        apply ih (removeFirst t.id tl)
          (List.Nodup.sublist (removeFirst_sublist t.id tl) hnd)
        intro h hh
        have hne : h ≠ t.id := by
          intro hEq
          rw [hEq] at hh
          exact absurd hh (not_mem_removeFirst_self t.id tl hnd)
        have := hall h ((mem_removeFirst_of_ne t.id h tl hne).1 hh)
        simpa [firstTerminalIsSuccess, Ne.symm hne] using this
      · by_cases he : v = StVal.st TaskState.error
        · subst he
          have := hall t.id hm
          simp [firstTerminalIsSuccess] at this
        · simp only [stateCheck, hm, if_true, hs, if_false, he]
          apply ih tl hnd
          intro h hh
          have := hall h hh
          by_cases hid : t.id = h
          · simpa [firstTerminalIsSuccess, hid, hs, he] using this
          · simpa [firstTerminalIsSuccess, hid] using this
    · simp only [stateCheck, hm, if_false]
      apply ih tl hnd
      intro h hh
      have hne : t.id ≠ h := by
        intro hEq
        rw [hEq] at hm
        exact absurd hh hm
      have := hall h hh
      simpa [firstTerminalIsSuccess, hne] using this

/-!
Helpers at the level of waitForTasks and the orchestrator event traces.
-/

/-- waitForTasks, described through the loop meaning of the flattened
stream. -/
theorem waitForTasks_eq_spec (tasks : List Task) (stream : List Update)
    (hwf : wfStream stream = true) :
    waitForTasks tasks stream =
      { outcome := (loopSpec (flattenStream stream) (tasks.map Task.id)).1
        taskList := (loopSpec (flattenStream stream) (tasks.map Task.id)).2
        events := Event.createFilter (tasks.map Task.id) ::
          (if (loopSpec (flattenStream stream) (tasks.map Task.id)).1 = WaitOutcome.blocked
           then [] else [Event.destroyFilter]) } := by
  simp only [waitForTasks]
  rw [waitLoop_eq_loopSpec stream (tasks.map Task.id) none none hwf]

/-- waitForTasks on an empty task collection: the filter is still created
over the empty watched set, the loop is skipped whatever the stream holds,
the filter is destroyed, and the call returns normally. -/
theorem waitForTasks_nil_eq (stream : List Update) :
    waitForTasks [] stream =
      { outcome := WaitOutcome.success
        taskList := []
        events := [Event.createFilter [], Event.destroyFilter] } := by
  cases stream with
  | nil => rfl
  | cons u rest => rfl

/-- Shared core of the error claims: when the flattened stream consists of
a raise-free consumed piece followed by an error observation for a task
still pending at that point, waitForTasks surfaces exactly the error
payload of that task, whatever arrives afterwards. -/
theorem waitForTasks_error_run (tasks : List Task) (stream : List Update)
    (t : Task) (pre post : List (Task × StVal)) (tl1 : List String)
    (hwf : wfStream stream = true)
    (hflat : flattenStream stream = pre ++ (t, StVal.st TaskState.error) :: post)
    (hpre : foldObs pre (tasks.map Task.id) = FoldRes.done tl1)
    (hmem : t.id ∈ tl1) :
    waitForTasks tasks stream =
      { outcome := WaitOutcome.failure t.infoError
        taskList := tl1
        events := [Event.createFilter (tasks.map Task.id), Event.destroyFilter] } := by
  have hloop : loopSpec (flattenStream stream) (tasks.map Task.id) =
      (WaitOutcome.failure t.infoError, tl1) := by
    rw [hflat, loopSpec_append_done pre _ _ tl1 hpre]
    simp [loopSpec, foldObs, stateCheck_error t tl1 hmem]
  rw [waitForTasks_eq_spec tasks stream hwf, hloop]
  simp

/-- powerOffNames distributes over concatenation. -/
theorem powerOffNames_append (a b : List Event) :
    powerOffNames (a ++ b) = powerOffNames a ++ powerOffNames b := by
  simp [powerOffNames]

/-- destroyNames distributes over concatenation. -/
theorem destroyNames_append (a b : List Event) :
    destroyNames (a ++ b) = destroyNames a ++ destroyNames b := by
  simp [destroyNames]

/-- Unfolding of the phase 1 trace over the head VM. -/
theorem phase1Events_cons (fn : String) (vm : VM) (rest : List VM) (vb : Bool) :
    phase1Events fn (vm :: rest) vb =
      (if vm.powerState == STATE_POWERON then
        (if vb then [Event.printLine ("Powering off " ++ fn ++ vm.name)] else [])
          ++ [Event.powerOffReq vm.name]
       else []) ++ phase1Events fn rest vb := by
  simp [phase1Events, List.flatMap_cons]

/-- Unfolding of the phase 2 trace over the head VM. -/
theorem phase2Events_cons (fn : String) (vm : VM) (rest : List VM) (vb : Bool) :
    phase2Events fn (vm :: rest) vb =
      ((if vb then [Event.printLine ("Destroying " ++ fn ++ vm.name)] else [])
        ++ [Event.destroyReq vm.name]) ++ phase2Events fn rest vb := by
  simp [phase2Events, List.flatMap_cons]

/-- Phase 1 submits a power-off exactly for the VMs currently poweredOn. -/
theorem powerOffNames_phase1 (fn : String) (vmList : List VM) (vb : Bool) :
    powerOffNames (phase1Events fn vmList vb) =
      (vmList.filter (fun vm => vm.powerState == STATE_POWERON)).map VM.name := by
  induction vmList with
  | nil => rfl
  | cons vm rest ih =>
    rw [phase1Events_cons, powerOffNames_append, ih]
    cases hp : (vm.powerState == STATE_POWERON) <;>
      cases vb <;>
        simp [hp, powerOffNames, List.filter_cons]

/-- Phase 1 submits no destroy request. -/
theorem destroyNames_phase1 (fn : String) (vmList : List VM) (vb : Bool) :
    destroyNames (phase1Events fn vmList vb) = [] := by
  induction vmList with
  | nil => rfl
  | cons vm rest ih =>
    rw [phase1Events_cons, destroyNames_append, ih]
    cases hp : (vm.powerState == STATE_POWERON) <;>
      cases vb <;>
        simp [hp, destroyNames]

/-- Phase 2 submits no power-off request. -/
theorem powerOffNames_phase2 (fn : String) (vmList : List VM) (vb : Bool) :
    powerOffNames (phase2Events fn vmList vb) = [] := by
  induction vmList with
  | nil => rfl
  | cons vm rest ih =>
    rw [phase2Events_cons, powerOffNames_append, ih]
    cases vb <;> simp [powerOffNames]

/-- Phase 2 submits a destroy request for every VM in the input, in order. -/
theorem destroyNames_phase2 (fn : String) (vmList : List VM) (vb : Bool) :
    destroyNames (phase2Events fn vmList vb) = vmList.map VM.name := by
  induction vmList with
  | nil => rfl
  | cons vm rest ih =>
    rw [phase2Events_cons, destroyNames_append, ih]
    cases vb <;> simp [destroyNames]

/-- A wait emits only filter events, no power-off submission. -/
theorem powerOffNames_wait (tasks : List Task) (stream : List Update) :
    powerOffNames (waitForTasks tasks stream).events = [] := by
  simp only [waitForTasks]
  by_cases hb : (waitLoop stream (tasks.map Task.id) none none).1 = WaitOutcome.blocked <;>
    simp [hb, powerOffNames]

/-- A wait emits only filter events, no destroy submission. -/
theorem destroyNames_wait (tasks : List Task) (stream : List Update) :
    destroyNames (waitForTasks tasks stream).events = [] := by
  simp only [waitForTasks]
  by_cases hb : (waitLoop stream (tasks.map Task.id) none none).1 = WaitOutcome.blocked <;>
    simp [hb, destroyNames]

/-- A destroy submission present in a trace contributes its name. -/
theorem mem_destroyNames (n : String) (es : List Event)
    (h : Event.destroyReq n ∈ es) : n ∈ destroyNames es := by
  rw [destroyNames, List.mem_filterMap]
  exact ⟨Event.destroyReq n, h, rfl⟩

/-!
Claim theorems.
-/

/-- Claim C1: for every non-empty set of job handles, if the stream reports
success for every handle with no error for that handle beforehand, then
waitForTasks returns success once the pending set becomes empty, whatever
the batching and whichever of the two field kinds carries each state. -/
theorem claim_C1 (tasks : List Task) (stream : List Update)
    (hne : tasks ≠ [])
    (hnd : (tasks.map Task.id).Nodup)
    (hwf : wfStream stream = true)
    (hall : ∀ h ∈ tasks.map Task.id,
      firstTerminalIsSuccess h (flattenStream stream) = true) :
    (waitForTasks tasks stream).outcome = WaitOutcome.success ∧
    (waitForTasks tasks stream).taskList = [] := by
  have hfold := foldObs_done_nil_of_success (flattenStream stream) (tasks.map Task.id) hnd hall
  rw [waitForTasks_eq_spec tasks stream hwf]
  simp [loopSpec, hfold]

/-- Witness for claim C1 on a concrete two-task batch whose successes
arrive through the two different field kinds. -/
theorem claim_C1_witness :
    (waitForTasks tasksC1 streamC1).outcome = WaitOutcome.success ∧
    (waitForTasks tasksC1 streamC1).taskList = [] :=
  claim_C1 tasksC1 streamC1 (by decide) (by decide) (by decide) (by decide)

/-- Claim C2: when an error observation for a still-pending task follows a
raise-free consumed piece of the stream, waitForTasks fails with exactly
that task's error payload, even though other handles are still pending, and
nothing delivered after the error influences the result. -/
theorem claim_C2 (tasks : List Task) (stream : List Update) (t : Task)
    (pre post : List (Task × StVal)) (tl1 : List String)
    (hwf : wfStream stream = true)
    (hflat : flattenStream stream = pre ++ (t, StVal.st TaskState.error) :: post)
    (hpre : foldObs pre (tasks.map Task.id) = FoldRes.done tl1)
    (hmem : t.id ∈ tl1) :
    (waitForTasks tasks stream).outcome = WaitOutcome.failure t.infoError ∧
    (∀ (stream2 : List Update) (post2 : List (Task × StVal)),
      wfStream stream2 = true →
      flattenStream stream2 = pre ++ (t, StVal.st TaskState.error) :: post2 →
      waitForTasks tasks stream2 = waitForTasks tasks stream) := by
  have h1 := waitForTasks_error_run tasks stream t pre post tl1 hwf hflat hpre hmem
  constructor
  · rw [h1]
  · intro stream2 post2 hwf2 hflat2
    rw [h1, waitForTasks_error_run tasks stream2 t pre post2 tl1 hwf2 hflat2 hpre hmem]

/-- Witness for claim C2: the error for e2 aborts the wait with payload 4
although a change for e2 is still queued behind it. -/
theorem claim_C2_witness :
    (waitForTasks tasksC2 streamC2).outcome = WaitOutcome.failure 4 :=
  (claim_C2 tasksC2 streamC2 ⟨"e2", 4⟩
    [(⟨"e1", 3⟩, StVal.st TaskState.success)]
    [(⟨"e2", 4⟩, StVal.st TaskState.running)] ["e2"]
    (by decide) (by decide) (by decide) (by decide)).1

/-- Claim C3: on every exit path of waitForTasks (success, failure, crash,
but not the non-exit blocked case) the subscription filter is destroyed
exactly once. -/
theorem claim_C3 (tasks : List Task) (stream : List Update)
    (hexit : (waitForTasks tasks stream).outcome ≠ WaitOutcome.blocked) :
    (waitForTasks tasks stream).events.count Event.destroyFilter = 1 := by
  by_cases hb : (waitLoop stream (tasks.map Task.id) none none).1 = WaitOutcome.blocked
  · exact absurd (by simp [waitForTasks, hb]) hexit
  · simp [waitForTasks, hb, List.count_cons]

/-- Witness for claim C3 on the empty batch, which exits successfully. -/
theorem claim_C3_witness :
    (waitForTasks [] ([] : List Update)).outcome ≠ WaitOutcome.blocked ∧
    (waitForTasks [] ([] : List Update)).events.count Event.destroyFilter = 1 :=
  ⟨by decide, claim_C3 [] [] (by decide)⟩

/-- Counterexample to claim C4 as stated: two runs in which different
handles (task-1 in the first, task-2 in the second) report the error are
indistinguishable to the caller, because the code raises task.info.error
alone; the surfaced failure therefore cannot carry the originating job
handle. -/
theorem claim_C4_counterexample :
    waitForTasks tasksC4 streamErrFirst = waitForTasks tasksC4 streamErrSecond ∧
    (waitForTasks tasksC4 streamErrFirst).outcome = WaitOutcome.failure 7 ∧
    flattenStream streamErrFirst = [(taskOne, StVal.st TaskState.error)] ∧
    flattenStream streamErrSecond = [(taskTwo, StVal.st TaskState.error)] ∧
    taskOne ≠ taskTwo := by
  decide

/-- Claim C9: an empty target list performs no operations: no job is
submitted, no subscription filter is created, the awaiter is never entered,
and the orchestrator returns success. -/
theorem claim_C9 (folder : Option String) (verbose : Bool)
    (stream1 stream2 : List Update) :
    powerDownAndDelete folder [] verbose stream1 stream2 =
      { outcome := WaitOutcome.success, events := [] } ∧
    (∀ w, Event.createFilter w ∉
      (powerDownAndDelete folder [] verbose stream1 stream2).events) := by
  refine ⟨rfl, ?_⟩
  intro w
  simp [powerDownAndDelete, powerDownPhase2, powerTaskListOf, deleteTaskListOf,
    phase1Events, phase2Events]

/-- Claim C10: waitForTasks called directly on an empty job list still
creates a filter over the empty watched set, never enters the wait loop
(the result does not depend on the stream at all), destroys the filter and
returns success. -/
theorem claim_C10 (stream : List Update) :
    waitForTasks [] stream =
      { outcome := WaitOutcome.success
        taskList := []
        events := [Event.createFilter [], Event.destroyFilter] } :=
  waitForTasks_nil_eq stream

/-- Phase 2 keeps the trace it is given and adds its own destroy
submissions and wait events; it never submits a power-off. -/
theorem powerOffNames_phase2run (fn : String) (vmList : List VM) (vb : Bool)
    (stream2 : List Update) (evs : List Event) :
    powerOffNames (powerDownPhase2 fn vmList vb stream2 evs).events =
      powerOffNames evs := by
  by_cases hde : (deleteTaskListOf vmList).isEmpty = true
  · simp only [powerDownPhase2]
    rw [if_pos hde]
    simp [powerOffNames_append, powerOffNames_phase2]
  · simp only [powerDownPhase2]
    rw [if_neg hde]
    simp [powerOffNames_append, powerOffNames_phase2, powerOffNames_wait]

/-- Phase 2 submits a destroy for every VM of the input after whatever the
given trace already holds. -/
theorem destroyNames_phase2run (fn : String) (vmList : List VM) (vb : Bool)
    (stream2 : List Update) (evs : List Event) :
    destroyNames (powerDownPhase2 fn vmList vb stream2 evs).events =
      destroyNames evs ++ vmList.map VM.name := by
  by_cases hde : (deleteTaskListOf vmList).isEmpty = true
  · simp only [powerDownPhase2]
    rw [if_pos hde]
    simp [destroyNames_append, destroyNames_phase2]
  · simp only [powerDownPhase2]
    rw [if_neg hde]
    simp [destroyNames_append, destroyNames_phase2, destroyNames_wait]

/-- A failing phase 1 wait aborts the orchestrator with the same failure
and no destroy submission ever happens. -/
theorem powerDownAndDelete_phase1_failure (folder : Option String) (vmList : List VM)
    (verbose : Bool) (stream1 stream2 : List Update) (e : Nat)
    (hfail : (waitForTasks (powerTaskListOf vmList) stream1).outcome =
      WaitOutcome.failure e) :
    (powerDownAndDelete folder vmList verbose stream1 stream2).outcome =
      WaitOutcome.failure e ∧
    ∀ n, Event.destroyReq n ∉
      (powerDownAndDelete folder vmList verbose stream1 stream2).events := by
  have hne : ¬((powerTaskListOf vmList).isEmpty = true) := by
    intro hemp
    rw [List.isEmpty_iff] at hemp
    rw [hemp, waitForTasks_nil_eq] at hfail
    exact absurd hfail (by simp)
  have hns : ¬((waitForTasks (powerTaskListOf vmList) stream1).outcome =
      WaitOutcome.success) := by
    rw [hfail]
    simp
  simp only [powerDownAndDelete]
  rw [if_neg hne, if_neg hns]
  refine ⟨hfail, ?_⟩
  intro n hmem
  have hn := mem_destroyNames n _ hmem
  rw [destroyNames_append, destroyNames_phase1, destroyNames_wait] at hn
  exact absurd hn (by simp)

/-- Claim C5: a destroy request can only appear in the trace when phase 1
had no job to wait for or its wait returned success, i.e. after every
power-off job reached a terminal state; and when a phase 1 power-off job
resolves to error, no destroy request is ever submitted and the overall
result is that failure. -/
theorem claim_C5 (folder : Option String) (vmList : List VM) (verbose : Bool)
    (stream1 stream2 : List Update) :
    ((∃ n, Event.destroyReq n ∈
        (powerDownAndDelete folder vmList verbose stream1 stream2).events) →
      powerTaskListOf vmList = [] ∨
        (waitForTasks (powerTaskListOf vmList) stream1).outcome = WaitOutcome.success) ∧
    (∀ e, (waitForTasks (powerTaskListOf vmList) stream1).outcome = WaitOutcome.failure e →
      (powerDownAndDelete folder vmList verbose stream1 stream2).outcome =
        WaitOutcome.failure e ∧
      ∀ n, Event.destroyReq n ∉
        (powerDownAndDelete folder vmList verbose stream1 stream2).events) := by
  constructor
  · rintro ⟨n, hmem⟩
    by_cases hpe : (powerTaskListOf vmList).isEmpty = true
    · exact Or.inl (List.isEmpty_iff.mp hpe)
    · by_cases hw : (waitForTasks (powerTaskListOf vmList) stream1).outcome =
          WaitOutcome.success
      · exact Or.inr hw
      · exfalso
        simp only [powerDownAndDelete] at hmem
        rw [if_neg hpe, if_neg hw] at hmem
        have hn := mem_destroyNames n _ hmem
        rw [destroyNames_append, destroyNames_phase1, destroyNames_wait] at hn
        exact absurd hn (by simp)
  · intro e hfail
    exact powerDownAndDelete_phase1_failure folder vmList verbose stream1 stream2 e hfail

/-- Witness for claim C5: a powered-off VM produces a destroy request with
an empty phase 1, and a failing power-off job aborts before any destroy. -/
theorem claim_C5_witness :
    (powerTaskListOf [vmC5off] = [] ∨
      (waitForTasks (powerTaskListOf [vmC5off]) ([] : List Update)).outcome =
        WaitOutcome.success) ∧
    ((powerDownAndDelete none [vmC5on] false streamC5err ([] : List Update)).outcome =
        WaitOutcome.failure 9 ∧
      ∀ n, Event.destroyReq n ∉
        (powerDownAndDelete none [vmC5on] false streamC5err ([] : List Update)).events) :=
  ⟨(claim_C5 none [vmC5off] false ([] : List Update) streamC5ok).1 ⟨"voff", by decide⟩,
   (claim_C5 none [vmC5on] false streamC5err ([] : List Update)).2 9 (by decide)⟩

/-- Claim C6: phase 1 submits a power-off exactly for the targets whose
power state is poweredOn, and, whenever phase 2 is reached (no phase 1 job,
or the phase 1 wait succeeded), a destroy is submitted for every target of
the input, the already powered-off ones included. -/
theorem claim_C6 (folder : Option String) (vmList : List VM) (verbose : Bool)
    (stream1 stream2 : List Update) :
    powerOffNames (powerDownAndDelete folder vmList verbose stream1 stream2).events =
      (vmList.filter (fun vm => vm.powerState == STATE_POWERON)).map VM.name ∧
    ((powerTaskListOf vmList = [] ∨
        (waitForTasks (powerTaskListOf vmList) stream1).outcome = WaitOutcome.success) →
      destroyNames (powerDownAndDelete folder vmList verbose stream1 stream2).events =
        vmList.map VM.name) := by
  by_cases hpe : (powerTaskListOf vmList).isEmpty = true
  · constructor
    · simp [powerDownAndDelete, hpe, powerOffNames_phase2run, powerOffNames_phase1]
    · intro _
      simp [powerDownAndDelete, hpe, destroyNames_phase2run, destroyNames_phase1]
  · by_cases hw : (waitForTasks (powerTaskListOf vmList) stream1).outcome =
        WaitOutcome.success
    · constructor
      · simp [powerDownAndDelete, hpe, hw, powerOffNames_phase2run, powerOffNames_append,
          powerOffNames_phase1, powerOffNames_wait]
      · intro _
        simp [powerDownAndDelete, hpe, hw, destroyNames_phase2run, destroyNames_append,
          destroyNames_phase1, destroyNames_wait]
    · constructor
      · simp [powerDownAndDelete, hpe, hw, powerOffNames_append, powerOffNames_phase1,
          powerOffNames_wait]
      · rintro (h | h)
        · exact absurd (by rw [h]; rfl) hpe
        · exact absurd h hw

/-- Witness for claim C6 on the spec scenario: one running and one
powered-off VM; phase 1 powers off only the running one, phase 2 destroys
both. -/
theorem claim_C6_witness :
    powerOffNames (powerDownAndDelete none [vmC6a, vmC6b] true streamC6p streamC6d).events =
      ([vmC6a, vmC6b].filter (fun vm => vm.powerState == STATE_POWERON)).map VM.name ∧
    destroyNames (powerDownAndDelete none [vmC6a, vmC6b] true streamC6p streamC6d).events =
      [vmC6a, vmC6b].map VM.name :=
  ⟨(claim_C6 none [vmC6a, vmC6b] true streamC6p streamC6d).1,
   (claim_C6 none [vmC6a, vmC6b] true streamC6p streamC6d).2 (Or.inr (by decide))⟩

/-- Claim C7: the pending list only shrinks (final value a sublist of the
initial one), stays duplicate free, loses a handle only through a success
observation for that handle, and the loop returns success exactly when the
pending list has become empty. -/
theorem claim_C7 (tasks : List Task) (stream : List Update)
    (hwf : wfStream stream = true)
    (hnd : (tasks.map Task.id).Nodup) :
    ((waitForTasks tasks stream).taskList.Sublist (tasks.map Task.id)) ∧
    (waitForTasks tasks stream).taskList.Nodup ∧
    (∀ h ∈ tasks.map Task.id, h ∉ (waitForTasks tasks stream).taskList →
      ∃ t : Task, (t, StVal.st TaskState.success) ∈ flattenStream stream ∧ t.id = h) ∧
    ((waitForTasks tasks stream).outcome = WaitOutcome.success ↔
      (waitForTasks tasks stream).taskList = []) := by
  rw [waitForTasks_eq_spec tasks stream hwf]
  have hsub := tlOf_foldObs_sublist (flattenStream stream) (tasks.map Task.id)
  have hrem := foldObs_removed_success (flattenStream stream) (tasks.map Task.id)
  cases hf : foldObs (flattenStream stream) (tasks.map Task.id) with
  | done tl2 =>
    rw [hf] at hsub hrem
    simp only [tlOf] at hsub hrem
    by_cases hemp : tl2.isEmpty = true
    · have htl2 : tl2 = [] := List.isEmpty_iff.mp hemp
      subst htl2
      simp only [loopSpec, hf, List.isEmpty_nil, if_true]
      exact ⟨List.nil_sublist _, List.nodup_nil,
        fun h hmem _ => hrem h hmem (by simp), by simp⟩
    · have htl2 : tl2 ≠ [] := by
        intro hc
        rw [hc] at hemp
        exact hemp rfl
      simp only [loopSpec, hf, hemp, if_false]
      exact ⟨hsub, List.Nodup.sublist hsub hnd,
        fun h hmem hnot => hrem h hmem hnot,
        ⟨fun hcon => absurd hcon (by simp), fun hcon => absurd hcon htl2⟩⟩
  | raisedF e2 tl2 =>
    have htl2 := foldObs_raisedF_ne_nil (flattenStream stream) (tasks.map Task.id) tl2 e2 hf
    rw [hf] at hsub hrem
    simp only [tlOf] at hsub hrem
    simp only [loopSpec, hf]
    exact ⟨hsub, List.Nodup.sublist hsub hnd,
      fun h hmem hnot => hrem h hmem hnot,
      ⟨fun hcon => absurd hcon (by simp), fun hcon => absurd hcon htl2⟩⟩

/-- Witness for claim C7: one of two pending tasks succeeds, the wait then
blocks with the other still pending. -/
theorem claim_C7_witness :
    ((waitForTasks tasksC7 streamC7).taskList.Sublist (tasksC7.map Task.id)) ∧
    (waitForTasks tasksC7 streamC7).taskList.Nodup ∧
    (∀ h ∈ tasksC7.map Task.id, h ∉ (waitForTasks tasksC7 streamC7).taskList →
      ∃ t : Task, (t, StVal.st TaskState.success) ∈ flattenStream streamC7 ∧ t.id = h) ∧
    ((waitForTasks tasksC7 streamC7).outcome = WaitOutcome.success ↔
      (waitForTasks tasksC7 streamC7).taskList = []) :=
  claim_C7 tasksC7 streamC7 (by decide) (by decide)

/-- Claim C8: a change with an unrecognised property name is skipped with
no effect at all, and a well-formed change aimed at a handle outside the
pending list (an error state included) neither alters the pending list nor
aborts the wait: processing continues exactly as without it, up to the
value of the dead state variable. -/
theorem claim_C8 (task : Task) (c : Change) (rest : List Change)
    (tl : List String) (st : Option StVal) :
    (c.name ≠ "info" → c.name ≠ "info.state" →
      processChangeSet task (c :: rest) tl st = processChangeSet task rest tl st) ∧
    (wfChange c = true → task.id ∉ tl →
      ∃ st2, processChangeSet task (c :: rest) tl st =
        processChangeSet task rest tl st2) := by
  constructor
  · intro h1 h2
    simp [processChangeSet, h1, h2]
  · intro hwfc hnot
    by_cases h1 : c.name = "info"
    · cases hv : c.val with
      | infoVal s =>
        refine ⟨some (StVal.st s), ?_⟩
        simp [processChangeSet, h1, hv, stateCheck_not_mem task (StVal.st s) tl hnot]
      | stateVal s => simp [wfChange, h1, hv] at hwfc
      | otherVal => simp [wfChange, h1, hv] at hwfc
    · by_cases h2 : c.name = "info.state"
      · refine ⟨some (fineVal c.val), ?_⟩
        simp [processChangeSet, h1, h2, stateCheck_not_mem task (fineVal c.val) tl hnot]
      · exact ⟨st, by simp [processChangeSet, h1, h2]⟩

/-- Witness for claim C8: an unknown-name change is dropped, and an error
state for a non-pending handle does not abort the wait. -/
theorem claim_C8_witness :
    (processChangeSet taskC8 [changeC8a] tlC8 none = processChangeSet taskC8 [] tlC8 none) ∧
    (∃ st2, processChangeSet taskC8 [changeC8b] tlC8 none =
      processChangeSet taskC8 [] tlC8 st2) :=
  ⟨(claim_C8 taskC8 changeC8a [] tlC8 none).1 (by decide) (by decide),
   (claim_C8 taskC8 changeC8b [] tlC8 none).2 (by decide) (by decide)⟩

/-- Amended claim C4: on the first error observed for a pending job, the
surfaced failure carries exactly that job's server error payload (the code
raises task.info.error), and this payload is propagated unchanged through
the orchestrator to its caller; the originating job handle, however, is not
part of the surfaced value. -/
theorem claim_C4_amended (folder : Option String) (vmList : List VM) (verbose : Bool)
    (stream1 stream2 : List Update) (t : Task) (pre post : List (Task × StVal))
    (tl1 : List String)
    (hwf : wfStream stream1 = true)
    (hflat : flattenStream stream1 = pre ++ (t, StVal.st TaskState.error) :: post)
    (hpre : foldObs pre ((powerTaskListOf vmList).map Task.id) = FoldRes.done tl1)
    (hmem : t.id ∈ tl1) :
    (waitForTasks (powerTaskListOf vmList) stream1).outcome =
      WaitOutcome.failure t.infoError ∧
    (powerDownAndDelete folder vmList verbose stream1 stream2).outcome =
      WaitOutcome.failure t.infoError := by
  have h1 := waitForTasks_error_run (powerTaskListOf vmList) stream1 t pre post tl1
    hwf hflat hpre hmem
  have ho : (waitForTasks (powerTaskListOf vmList) stream1).outcome =
      WaitOutcome.failure t.infoError := by rw [h1]
  exact ⟨ho, (powerDownAndDelete_phase1_failure folder vmList verbose stream1 stream2
    t.infoError ho).1⟩

/-- Witness for the amended claim C4: the failing power-off of a single
running VM surfaces payload 7 from both the awaiter and the orchestrator. -/
theorem claim_C4_amended_witness :
    (waitForTasks (powerTaskListOf [vmC4]) streamErrFirst).outcome =
      WaitOutcome.failure 7 ∧
    (powerDownAndDelete none [vmC4] false streamErrFirst ([] : List Update)).outcome =
      WaitOutcome.failure 7 :=
  claim_C4_amended none [vmC4] false streamErrFirst ([] : List Update) taskOne [] []
    ["task-1"] (by decide) (by decide) (by decide) (by decide)

end FindVMs
